import Mathlib

/-!
Shallow embedding of the `carrier.ts` HTTP request dispatcher
(class `Carrier`): environment/profile resolution, auth strategy
application, URL resolution, lifecycle hooks and the shared response
envelope.  The network transport and `localStorage` are external
collaborators: the transport is passed in as a function argument and
the credential store is a field of the state.  Parsed JSON values are
opaque to the dispatcher (it never inspects them), so they are
represented by an abstract token type.
-/

namespace Carrier

/-- Headers are a `Record<string, string>`: an insertion-ordered list of
unique keys.  JS property assignment keeps the original position on
overwrite and appends otherwise. -/
abbrev Headers := List (String × String)

/-- `headers[k] = v` on a JS object: replace in place if the key exists,
else append. -/
def setHeader : Headers → String → String → Headers
  | [], k, v => [(k, v)]
  | p :: rest, k, v =>
    if p.1 = k then (k, v) :: rest else p :: setHeader rest k v

/-- `headers[k]` lookup. -/
def getHeader (hs : Headers) (k : String) : Option String :=
  hs.lookup k

/-- JS truthiness of an optional string: `undefined` and `""` are falsy. -/
def optTruthy : Option String → Bool
  | some s => s ≠ ""
  | none => false

/-- UTF-8 encoding of a code point, as a list of byte values. -/
def utf8Bytes (n : Nat) : List Nat :=
  if n < 0x80 then [n]
  else if n < 0x800 then [0xC0 + n / 64, 0x80 + n % 64]
  else if n < 0x10000 then [0xE0 + n / 4096, 0x80 + (n / 64) % 64, 0x80 + n % 64]
  else [0xF0 + n / 262144, 0x80 + (n / 4096) % 64, 0x80 + (n / 64) % 64, 0x80 + n % 64]

/-- Uppercase hex digit. -/
def hexDigit (n : Nat) : Char :=
  "0123456789ABCDEF".data.getD n '0'

/-- A percent-encoded byte, e.g. `%20`. -/
def percentByte (b : Nat) : String :=
  "%" ++ String.mk [hexDigit (b / 16), hexDigit (b % 16)]

/-- Characters `encodeURIComponent` leaves unescaped:
`A-Z a-z 0-9 - _ . ! ~ * ' ( )`. -/
def isUriUnreserved (c : Char) : Bool :=
  c.isAlpha || c.isDigit ||
    c.toNat ∈ [45, 95, 46, 33, 126, 42, 39, 40, 41]

/-- One character under `encodeURIComponent`. -/
def encodeUriChar (c : Char) : String :=
  if isUriUnreserved c then String.mk [c]
  else String.join ((utf8Bytes c.toNat).map percentByte)

/-- Model of JavaScript `encodeURIComponent`. -/
def encodeURIComponent (s : String) : String :=
  String.join (s.data.map encodeUriChar)

/-- Base64 alphabet. -/
def b64Char (n : Nat) : Char :=
  "ABCDEFGHIJKLMNOPQRSTUVWXYZabcdefghijklmnopqrstuvwxyz0123456789+/".data.getD n 'A'

/-- Base64 encoding of a byte list, with `=` padding. -/
def b64Chunks : List Nat → List Char
  | [] => []
  | [a] => [b64Char (a / 4), b64Char (a % 4 * 16), '=', '=']
  | [a, b] => [b64Char (a / 4), b64Char (a % 4 * 16 + b / 16), b64Char (b % 16 * 4), '=']
  | a :: b :: c :: rest =>
      b64Char (a / 4) :: b64Char (a % 4 * 16 + b / 16) ::
        b64Char (b % 16 * 4 + c / 64) :: b64Char (c % 64) :: b64Chunks rest

/-- Model of `btoa`: base64 of the string's code points (its domain is
latin-1 strings, where each code point is one byte). -/
def btoa (s : String) : String :=
  String.mk (b64Chunks (s.data.map Char.toNat))

/-- Substring search over character lists: does `pat` occur in `l`? -/
def strContains : List Char → List Char → Bool
  | [], pat => pat.isEmpty
  | c :: rest, pat => pat.isPrefixOf (c :: rest) || strContains rest pat

/-- Model of JavaScript `s.includes(pat)`. -/
def jsIncludes (s pat : String) : Bool :=
  strContains s.data pat.data

/-- Model of JavaScript `s.startsWith(pre)`. -/
def strStartsWith (s pre : String) : Bool :=
  pre.data.isPrefixOf s.data

/-- HTTP methods accepted by `CarrierOptions.method`. -/
inductive Method
  | GET | POST | PUT | DELETE | PATCH | HEAD | OPTIONS
deriving DecidableEq, Repr

/-- `CarrierHookEvent`: the fixed set of lifecycle events. -/
inductive HookEvent
  | request | response | ok | error | get | post | put | delete | patch
deriving DecidableEq, Repr

/-- A registered callback.  Callbacks are opaque observers identified by
`id`; `throws` says whether invoking the callback raises an exception.
They do not mutate the client. -/
structure Hook where
  id : Nat
  throws : Bool
deriving DecidableEq, Repr

/-- `hooks`: the per-event ordered callback lists (absent list = empty). -/
structure HookMap where
  request : List Hook := []
  response : List Hook := []
  ok : List Hook := []
  error : List Hook := []
  get : List Hook := []
  post : List Hook := []
  put : List Hook := []
  delete : List Hook := []
  patch : List Hook := []
deriving DecidableEq, Repr

/-- The callback list of an event. -/
def hookList (h : HookMap) : HookEvent → List Hook
  | .request => h.request
  | .response => h.response
  | .ok => h.ok
  | .error => h.error
  | .get => h.get
  | .post => h.post
  | .put => h.put
  | .delete => h.delete
  | .patch => h.patch

/-- `in: "header" | "query"` of the apikey variant. -/
inductive ApiKeyPlacement
  | header | query
deriving DecidableEq, Repr

/-- `CarrierAuthConfig`: tagged union of auth strategies. -/
inductive AuthConfig
  | bearer (token : String)
  | basic (username password : String)
  | apikey (key value : String) (placement : ApiKeyPlacement)
deriving DecidableEq, Repr

/-- Parsed JSON values are opaque to the dispatcher; an abstract token
stands for them. -/
abbrev JsonValue := String

/-- `JSON.stringify(options.data || {})` default object. -/
def jsonEmptyObject : JsonValue := "\x7b\x7d"

/-- `CarrierContainer`: the response envelope.  `data = none` is JS
`null`; `raw` holds the opaque response handle's identity. -/
structure Container where
  data : Option JsonValue := none
  status : Nat := 0
  raw : Option Nat := none
deriving DecidableEq, Repr

/-- The `Carrier` client state.  `localToken` models the external
credential store entry `localStorage["token"]`. -/
structure State where
  container : Container := {}
  token : Option String := none
  baseUrl : String := ""
  globalAuth : Option AuthConfig := none
  hooks : HookMap := {}
  localToken : Option String := none
deriving DecidableEq, Repr

/-- `CarrierOptions` for `send`. -/
structure SendOptions where
  method : Option Method := none
  url : String
  data : Option JsonValue := none
  headers : Option Headers := none
  useToken : Option Bool := none
  credentials : Option String := none
  auth : Option AuthConfig := none
deriving DecidableEq, Repr

/-- The request handed to the network primitive (`fetch`). -/
structure NetRequest where
  method : Method
  url : String
  headers : Headers
  credentials : String
  body : Option JsonValue
deriving DecidableEq, Repr

/-- The network primitive's response: status code, result of
`response.json()` (`none` = the parse threw), and the opaque handle's
identity. -/
structure NetResponse where
  status : Nat
  jsonBody : Option JsonValue
  hid : Nat
deriving DecidableEq, Repr

/-- `CarrierProfileConfig`. `profiles` is a JS object: an assoc list
with unique keys. -/
structure ProfileConfig where
  env : Option String := none
  profiles : List (String × String)
  token : Option String := none
deriving DecidableEq, Repr

/-- `inferEnv`: ordered heuristic mapping of the runtime hostname to an
environment tag. -/
def inferEnv (hostname : String) : String :=
  if hostname = "localhost" then "dev"
  else if jsIncludes hostname "qacore" then "qa"
  else "prod"

/-- The environment `configureProfiles` resolves:
`config.env || this.inferEnv()` (JS `||`, so an empty override falls
through). -/
def resolvedEnv (cfg : ProfileConfig) (hostname : String) : String :=
  match cfg.env with
  | some e => if e = "" then inferEnv hostname else e
  | none => inferEnv hostname

/-- `setToken`: stores the token on the client and in the credential
store. -/
def setToken (st : State) (token : String) : State :=
  { st with token := some token, localToken := some token }

/-- `configureProfiles`.  Returns the state after the call paired with
`some message` when the call throws (in the source the `throw` happens
before any assignment, so the state paired with an error is the entry
state). -/
def configureProfiles (st : State) (hostname : String) (cfg : ProfileConfig) :
    State × Option String :=
  let env := resolvedEnv cfg hostname
  match cfg.profiles.lookup env with
  | none => (st, some ("No baseUrl found for environment: " ++ env))
  | some url =>
    if url = "" then (st, some ("No baseUrl found for environment: " ++ env))
    else
      let st1 := { st with baseUrl := url }
      (match cfg.token with
       | some t => if t = "" then (st1, none) else (setToken st1 t, none)
       | none => (st1, none))

/-- `configure({baseUrl?, token?})`. -/
def configure (st : State) (baseUrl token : Option String) : State :=
  let st1 := match baseUrl with
    | some b => if b = "" then st else { st with baseUrl := b }
    | none => st
  match token with
  | some t => if t = "" then st1 else { st1 with token := some t, localToken := some t }
  | none => st1

/-- `configureBaseUrl`. -/
def configureBaseUrl (st : State) (url : String) : State :=
  { st with baseUrl := url }

/-- `configureToken`. -/
def configureToken (st : State) (token : String) : State :=
  setToken st token

/-- `configureAuth`: sets the global default auth strategy. -/
def configureAuth (st : State) (auth : AuthConfig) : State :=
  { st with globalAuth := some auth }

/-- `on(event, callback)`: append to the event's list (created lazily in
the source; absent and empty coincide here). -/
def onEvent (h : HookMap) (ev : HookEvent) (cb : Hook) : HookMap :=
  match ev with
  | .request => { h with request := h.request ++ [cb] }
  | .response => { h with response := h.response ++ [cb] }
  | .ok => { h with ok := h.ok ++ [cb] }
  | .error => { h with error := h.error ++ [cb] }
  | .get => { h with get := h.get ++ [cb] }
  | .post => { h with post := h.post ++ [cb] }
  | .put => { h with put := h.put ++ [cb] }
  | .delete => { h with delete := h.delete ++ [cb] }
  | .patch => { h with patch := h.patch ++ [cb] }

/-- `trigger`'s `forEach` loop: invoke the callbacks in order; a throwing
callback is invoked, its exception propagates, and the rest are not
reached.  Returns the invoked ids in order and the exception (the
throwing callback's id), if any. -/
def runHooks : List Hook → List Nat × Option Nat
  | [] => ([], none)
  | cb :: rest =>
    if cb.throws then ([cb.id], some cb.id)
    else
      let r := runHooks rest
      (cb.id :: r.1, r.2)

/-- `trigger(event, ...args)`: fires the event's callbacks.  Returns the
invocations as (event, callback id) pairs in firing order, and the
propagated exception, if any. -/
def trigger (h : HookMap) (ev : HookEvent) : List (HookEvent × Nat) × Option Nat :=
  let r := runHooks (hookList h ev)
  (r.1.map (fun i => (ev, i)), r.2)

/-- `applyAuth(headers, auth?, url?)`: picks `auth || this.globalAuth`,
mutates headers or appends a query parameter, returns the (possibly
extended) url.  The `in: "query"` branch appends only when the url is
truthy (non-empty). -/
def applyAuth (globalAuth : Option AuthConfig) (headers : Headers)
    (auth : Option AuthConfig) (url : String) : Headers × String :=
  match auth.orElse (fun _ => globalAuth) with
  | none => (headers, url)
  | some chosen =>
    match chosen with
    | .bearer t => (setHeader headers "Authorization" ("Bearer " ++ t), url)
    | .basic u p =>
        (setHeader headers "Authorization" ("Basic " ++ btoa (u ++ ":" ++ p)), url)
    | .apikey k v .header => (setHeader headers k v, url)
    | .apikey k v .query =>
        if url ≠ "" then
          let separator := if jsIncludes url "?" then "&" else "?"
          (headers, url ++ separator ++ k ++ "=" ++ encodeURIComponent v)
        else (headers, url)

/-- Recognized absolute-URL scheme prefixes. -/
def isAbsoluteUrl (u : String) : Bool :=
  strStartsWith u "http://" || strStartsWith u "https://"

/-- `resolveUrl`. -/
def resolveUrl (baseUrl : String) (requestUrl : String) : String :=
  if isAbsoluteUrl requestUrl then requestUrl else baseUrl ++ requestUrl

/-- Header construction of `send` (steps 1–2): `Content-Type` default for
non-GET, overlay of caller headers, then implicit bearer-token injection
unless disabled, no token configured, or an `Authorization` header is
already (truthily) set. -/
def buildHeaders (st : State) (opts : SendOptions) : Headers :=
  let method := opts.method.getD Method.GET
  let base : Headers :=
    if method ≠ Method.GET then [("Content-Type", "application/json")] else []
  let merged := (opts.headers.getD []).foldl (fun hs kv => setHeader hs kv.1 kv.2) base
  if opts.useToken ≠ some false ∧ optTruthy st.token = true ∧
      optTruthy (getHeader merged "Authorization") = false then
    setHeader merged "Authorization" ("Bearer " ++ st.token.getD "")
  else merged

/-- The verb-specific hook event of a method, when it has one. -/
def verbEvent : Method → Option HookEvent
  | .GET => some .get
  | .POST => some .post
  | .PUT => some .put
  | .DELETE => some .delete
  | .PATCH => some .patch
  | _ => none

/-- `options.credentials || "same-origin"`. -/
def credentialsOf (opts : SendOptions) : String :=
  match opts.credentials with
  | some c => if c = "" then "same-origin" else c
  | none => "same-origin"

/-- `ok()` over a status value: success = status in [200,300). -/
def okStatus (status : Nat) : Bool :=
  200 ≤ status ∧ status < 300

/-- The event `send` fires after `response`: `ok` when `this.ok()`, else
`error`. -/
def classifyEvent (status : Nat) : HookEvent :=
  if okStatus status then .ok else .error

/-- `ok()`. -/
def okState (st : State) : Bool :=
  okStatus st.container.status

/-- `check()`. -/
def checkState (st : State) : Bool :=
  okState st ∧ st.container.data ≠ none

/-- Result of one `send` call: the client state when `send` resolves (or
when a hook exception aborts it), the hook invocations in firing order
(event, callback id), the request issued to the network (`none` when the
call aborted before `fetch`), and the propagated hook exception, if
any. -/
structure SendResult where
  state : State
  trace : List (HookEvent × Nat)
  sentRequest : Option NetRequest
  thrown : Option Nat
deriving DecidableEq, Repr

/-- `send(options)`.  `net` is the network primitive. -/
def send (st : State) (opts : SendOptions) (net : NetRequest → NetResponse) :
    SendResult :=
  let method := opts.method.getD Method.GET
  let headers := buildHeaders st opts
  let r1 := trigger st.hooks .request
  match r1.2 with
  | some e => ⟨st, r1.1, none, some e⟩
  | none =>
    let rv : List (HookEvent × Nat) × Option Nat :=
      match verbEvent method with
      | some ev => trigger st.hooks ev
      | none => ([], none)
    match rv.2 with
    | some e => ⟨st, r1.1 ++ rv.1, none, some e⟩
    | none =>
      let au := applyAuth st.globalAuth headers opts.auth (resolveUrl st.baseUrl opts.url)
      let req : NetRequest :=
        { method := method
          url := au.2
          headers := au.1
          credentials := credentialsOf opts
          body :=
            if method ≠ Method.GET ∧ method ≠ Method.HEAD then
              some (opts.data.getD jsonEmptyObject)
            else none }
      let resp := net req
      let st2 := { st with
        container := { data := resp.jsonBody, status := resp.status, raw := some resp.hid } }
      let r3 := trigger st.hooks .response
      match r3.2 with
      | some e => ⟨st2, r1.1 ++ rv.1 ++ r3.1, some req, some e⟩
      | none =>
        let r4 := trigger st.hooks (classifyEvent st2.container.status)
        ⟨st2, r1.1 ++ rv.1 ++ r3.1 ++ r4.1, some req, r4.2⟩

/-- The invocation records produced by firing `ev` over callback list
`hs`. -/
def tagInvocations (ev : HookEvent) (hs : List Hook) : List (HookEvent × Nat) :=
  hs.map (fun c => (ev, c.id))

/-- No registered callback of any event throws. -/
def noThrowHooks (h : HookMap) : Bool :=
  (h.request ++ h.response ++ h.ok ++ h.error ++ h.get ++ h.post ++
    h.put ++ h.delete ++ h.patch).all (fun c => !c.throws)

/-- Whether an effective auth strategy writes the header named `k`
when applied by `applyAuth`. -/
def writesHeaderKey : Option AuthConfig → String → Bool
  | none, _ => false
  | some (.bearer _), k => k = "Authorization"
  | some (.basic _ _), k => k = "Authorization"
  | some (.apikey key _ .header), k => key = k
  | some (.apikey _ _ .query), _ => false

/-! Supporting lemmas. -/

theorem getHeader_setHeader_self (hs : Headers) (k v : String) :
    getHeader (setHeader hs k v) k = some v := by
  induction hs with
  | nil => simp [setHeader, getHeader, List.lookup]
  | cons p rest ih =>
    by_cases h : p.1 = k
    · simp [setHeader, getHeader, List.lookup, h]
    · have hb : (k == p.1) = false := beq_eq_false_iff_ne.mpr (Ne.symm h)
      simp only [setHeader, getHeader, List.lookup, if_neg h, hb]
      exact ih

theorem getHeader_setHeader_ne (hs : Headers) {k k' : String} (v : String)
    (h : k' ≠ k) : getHeader (setHeader hs k' v) k = getHeader hs k := by
  induction hs with
  | nil =>
    have hb : (k == k') = false := beq_eq_false_iff_ne.mpr (Ne.symm h)
    simp [setHeader, getHeader, List.lookup, hb]
  | cons p rest ih =>
    by_cases hp : p.1 = k'
    · have hb : (k == k') = false := beq_eq_false_iff_ne.mpr (Ne.symm h)
      have hb2 : (k == p.1) = false := by rw [hp]; exact hb
      simp [setHeader, getHeader, List.lookup, hp, hb, hb2]
    · simp only [setHeader, getHeader, List.lookup, if_neg hp]
      by_cases hpk : k = p.1
      · simp [List.lookup, hpk]
      · have hb : (k == p.1) = false := beq_eq_false_iff_ne.mpr hpk
        simp only [List.lookup, hb]
        exact ih

/-- Overlaying headers whose keys avoid `k` does not change `k`'s
value. -/
theorem getHeader_overlay_of_notMem (l : List (String × String))
    (init : Headers) (k : String) :
    k ∉ l.map Prod.fst →
    getHeader (l.foldl (fun hs kv => setHeader hs kv.1 kv.2) init) k
      = getHeader init k := by
  induction l generalizing init with
  | nil => intro _; rfl
  | cons p rest ih =>
    intro h
    have hk : p.1 ≠ k := fun hc => h (by simp [hc])
    have hrest : k ∉ rest.map Prod.fst := fun hc => h (by simp [hc])
    rw [List.foldl_cons, ih (setHeader init p.1 p.2) hrest,
      getHeader_setHeader_ne init p.2 hk]

/-- Overlaying a unique-keyed record sets `k` to its recorded value. -/
theorem getHeader_overlay_lookup (l : List (String × String))
    (init : Headers) (k v : String) :
    (l.map Prod.fst).Nodup → l.lookup k = some v →
    getHeader (l.foldl (fun hs kv => setHeader hs kv.1 kv.2) init) k
      = some v := by
  induction l generalizing init with
  | nil => intro _ hv; simp [List.lookup] at hv
  | cons p rest ih =>
    intro hnd hv
    by_cases hp : k = p.1
    · have hbeq : (k == p.1) = true := beq_iff_eq.mpr hp
      have hval : p.2 = v := by
        simpa [List.lookup, hbeq] using hv
      have hnotin : k ∉ rest.map Prod.fst := by
        subst hp
        exact (List.nodup_cons.mp hnd).1
      calc getHeader ((p :: rest).foldl (fun hs kv => setHeader hs kv.1 kv.2) init) k
          = getHeader (setHeader init p.1 p.2) k :=
            getHeader_overlay_of_notMem rest (setHeader init p.1 p.2) k hnotin
        _ = some v := by rw [hp, hval]; exact getHeader_setHeader_self init p.1 v
    · have hbeq : (k == p.1) = false := beq_eq_false_iff_ne.mpr hp
      have hv' : rest.lookup k = some v := by
        simpa [List.lookup, hbeq] using hv
      exact ih (setHeader init p.1 p.2) (List.nodup_cons.mp hnd).2 hv'

theorem runHooks_noThrow (hs : List Hook) (h : ∀ c ∈ hs, c.throws = false) :
    runHooks hs = (hs.map Hook.id, none) := by
  induction hs with
  | nil => rfl
  | cons cb rest ih =>
    have hcb := h cb (List.mem_cons_self cb rest)
    have hrest := ih (fun c hc => h c (List.mem_cons_of_mem cb hc))
    simp [runHooks, hcb, hrest]

theorem runHooks_throwAt (pre : List Hook) (cb : Hook) (post : List Hook)
    (hpre : ∀ c ∈ pre, c.throws = false) (hcb : cb.throws = true) :
    runHooks (pre ++ cb :: post) = (pre.map Hook.id ++ [cb.id], some cb.id) := by
  induction pre with
  | nil => simp [runHooks, hcb]
  | cons p rest ih =>
    have hp := hpre p (List.mem_cons_self p rest)
    have hrest := ih (fun c hc => hpre c (List.mem_cons_of_mem p hc))
    simp [runHooks, hp, hrest]

theorem trigger_noThrow (h : HookMap) (ev : HookEvent)
    (hno : ∀ c ∈ hookList h ev, c.throws = false) :
    trigger h ev = (tagInvocations ev (hookList h ev), none) := by
  simp [trigger, runHooks_noThrow _ hno, tagInvocations, Function.comp]

theorem trigger_throwAt (h : HookMap) (ev : HookEvent) (pre : List Hook)
    (cb : Hook) (post : List Hook) (hsplit : hookList h ev = pre ++ cb :: post)
    (hpre : ∀ c ∈ pre, c.throws = false) (hcb : cb.throws = true) :
    trigger h ev = (tagInvocations ev (pre ++ [cb]), some cb.id) := by
  simp [trigger, hsplit, runHooks_throwAt pre cb post hpre hcb,
    tagInvocations, Function.comp]

theorem tagInvocations_classify (h : HookMap) (s : Nat) :
    tagInvocations (classifyEvent s) (hookList h (classifyEvent s)) =
      if 200 ≤ s ∧ s < 300 then tagInvocations .ok h.ok
      else tagInvocations .error h.error := by
  by_cases hs : 200 ≤ s ∧ s < 300 <;>
    simp [classifyEvent, okStatus, hs, hookList]

/-- Either `send` aborts before `fetch` with the state untouched, or it
issues exactly the request built from steps 1–5 and records that
request's response in the envelope. -/
theorem send_fetch_char (st : State) (opts : SendOptions)
    (net : NetRequest → NetResponse) :
    ((send st opts net).sentRequest = none ∧ (send st opts net).state = st) ∨
    ∃ req,
      (send st opts net).sentRequest = some req ∧
      req.method = opts.method.getD Method.GET ∧
      req.url = (applyAuth st.globalAuth (buildHeaders st opts) opts.auth
                  (resolveUrl st.baseUrl opts.url)).2 ∧
      req.headers = (applyAuth st.globalAuth (buildHeaders st opts) opts.auth
                  (resolveUrl st.baseUrl opts.url)).1 ∧
      (send st opts net).state =
        { st with container :=
            { data := (net req).jsonBody, status := (net req).status,
              raw := some (net req).hid } } := by
  unfold send
  dsimp only
  repeat' split
  all_goals first
    | exact Or.inl ⟨rfl, rfl⟩
    | exact Or.inr ⟨_, rfl, rfl, rfl, rfl, rfl⟩

theorem noThrowHooks_spec (h : HookMap) (hb : noThrowHooks h = true) :
    ∀ ev : HookEvent, ∀ c ∈ hookList h ev, c.throws = false := by
  intro ev c hc
  have hmem : c ∈ h.request ++ h.response ++ h.ok ++ h.error ++ h.get ++
      h.post ++ h.put ++ h.delete ++ h.patch := by
    cases ev <;> simp [hookList] at hc <;> simp [hc]
  have h2 := List.all_eq_true.mp hb c hmem
  simpa using h2

/-- `applyAuth` leaves every header the effective strategy does not
write untouched. -/
theorem getHeader_applyAuth_fst (g : Option AuthConfig) (hs : Headers)
    (a : Option AuthConfig) (url : String) (k : String)
    (hk : writesHeaderKey (a.orElse (fun _ => g)) k = false) :
    getHeader (applyAuth g hs a url).1 k = getHeader hs k := by
  rcases ha : a.orElse (fun _ => g) with _ | ch
  · simp [applyAuth, ha]
  · rcases ch with t | ⟨u, p⟩ | ⟨key, v, pl⟩
    · rw [ha] at hk
      have hne : ("Authorization" : String) ≠ k := by
        simp [writesHeaderKey] at hk
        exact fun hc => hk hc.symm
      simp [applyAuth, ha, getHeader_setHeader_ne hs _ hne]
    · rw [ha] at hk
      have hne : ("Authorization" : String) ≠ k := by
        simp [writesHeaderKey] at hk
        exact fun hc => hk hc.symm
      simp [applyAuth, ha, getHeader_setHeader_ne hs _ hne]
    · rcases pl
      · rw [ha] at hk
        have hne : key ≠ k := by
          simp [writesHeaderKey] at hk
          exact hk
        simp [applyAuth, ha, getHeader_setHeader_ne hs _ hne]
      · by_cases hu : url = "" <;> simp [applyAuth, ha, hu]

/-- A caller-supplied non-empty `Authorization` header survives header
construction: the implicit bearer-token injection is skipped. -/
theorem getHeader_buildHeaders_explicit (st : State) (opts : SendOptions)
    (uh : Headers) (v : String) (hopts : opts.headers = some uh)
    (hnd : (uh.map Prod.fst).Nodup)
    (hv : uh.lookup "Authorization" = some v) (hne : v ≠ "") :
    getHeader (buildHeaders st opts) "Authorization" = some v := by
  unfold buildHeaders
  dsimp only
  rw [hopts]
  have hmerge : getHeader
      (uh.foldl (fun hs kv => setHeader hs kv.1 kv.2)
        (if opts.method.getD Method.GET ≠ Method.GET then
          [("Content-Type", "application/json")] else []))
      "Authorization" = some v :=
    getHeader_overlay_lookup uh _ "Authorization" v hnd hv
  rw [Option.getD_some]
  rw [if_neg]
  · exact hmerge
  · rintro ⟨-, -, h3⟩
    rw [hmerge] at h3
    simp [optTruthy, hne] at h3

/-! Claim theorems. -/

/-- C1, counterexample: the claim that an explicit `Authorization`
header is never overwritten by the global Auth Strategy's bearer
variant is false.  With global auth `bearer "g"` and caller header
`Authorization: Basic xyz`, the issued request carries
`Authorization: Bearer g`. -/
theorem C1_counterexample :
    getHeader [("Authorization", "Basic xyz")] "Authorization" = some "Basic xyz" ∧
    ((send { globalAuth := some (.bearer "g") }
        { url := "/a", headers := some [("Authorization", "Basic xyz")] }
        (fun _ => ⟨200, none, 0⟩)).sentRequest.map
      (fun rq => getHeader rq.headers "Authorization")) = some (some "Bearer g") := by
  exact ⟨rfl, rfl⟩

/-- C1, amended: a caller-supplied non-empty `Authorization` header is
never overwritten by the implicit bearer-token injection, and reaches
the network call unchanged whenever the effective auth strategy
(per-request, else global) does not itself write the `Authorization`
header; the bearer and basic variants do overwrite it. -/
theorem C1_explicit_auth_preserved (st : State) (opts : SendOptions)
    (net : NetRequest → NetResponse) (uh : Headers) (v : String)
    (hopts : opts.headers = some uh)
    (hnd : (uh.map Prod.fst).Nodup)
    (hv : uh.lookup "Authorization" = some v) (hne : v ≠ "")
    (hauth : writesHeaderKey (opts.auth.orElse (fun _ => st.globalAuth))
      "Authorization" = false) :
    ∀ req, (send st opts net).sentRequest = some req →
      getHeader req.headers "Authorization" = some v := by
  intro req hreq
  rcases send_fetch_char st opts net with ⟨hnone, -⟩ | ⟨req', hsome, -, -, hhd, -⟩
  · rw [hreq] at hnone
    cases hnone
  · rw [hreq] at hsome
    injection hsome with he
    subst he
    rw [hhd, getHeader_applyAuth_fst _ _ _ _ _ hauth]
    exact getHeader_buildHeaders_explicit st opts uh v hopts hnd hv hne

/-- C1, witness: with no auth strategy configured, a caller-supplied
`Authorization: Basic xyz` header reaches the network call unchanged. -/
theorem C1_witness :
    (send {} { url := "/a", headers := some [("Authorization", "Basic xyz")] }
      (fun _ => ⟨200, none, 0⟩)).sentRequest =
      some ⟨.GET, "/a", [("Authorization", "Basic xyz")], "same-origin", none⟩ ∧
    getHeader ([("Authorization", "Basic xyz")] : Headers) "Authorization" =
      some "Basic xyz" := by
  refine ⟨rfl, ?_⟩
  exact C1_explicit_auth_preserved {}
    { url := "/a", headers := some [("Authorization", "Basic xyz")] }
    (fun _ => ⟨200, none, 0⟩) [("Authorization", "Basic xyz")] "Basic xyz"
    rfl (by decide) rfl (by decide) rfl
    ⟨.GET, "/a", [("Authorization", "Basic xyz")], "same-origin", none⟩ rfl

/-- C2, counterexample: the claim that a throwing callback does not
prevent subsequent callbacks nor abort the call is false.  With
request hooks `[0 (throws), 1]`, callback 1 never fires, no network
call happens, and the exception propagates out of `send`. -/
theorem C2_counterexample :
    (send { hooks := { request := [⟨0, true⟩, ⟨1, false⟩] } } { url := "/a" }
      (fun _ => ⟨200, none, 0⟩)).sentRequest = none ∧
    (send { hooks := { request := [⟨0, true⟩, ⟨1, false⟩] } } { url := "/a" }
      (fun _ => ⟨200, none, 0⟩)).thrown = some 0 ∧
    (send { hooks := { request := [⟨0, true⟩, ⟨1, false⟩] } } { url := "/a" }
      (fun _ => ⟨200, none, 0⟩)).trace = [(.request, 0)] ∧
    (HookEvent.request, 1) ∉
      (send { hooks := { request := [⟨0, true⟩, ⟨1, false⟩] } } { url := "/a" }
        (fun _ => ⟨200, none, 0⟩)).trace := by
  exact ⟨rfl, rfl, rfl, by decide⟩

/-- C2, amended: `trigger` does not catch callback exceptions: for
every event, a throwing callback stops the `forEach` (callbacks
registered after it for that event are not invoked) and the exception
propagates out of `send`.  A throw in the `request` or verb hooks
aborts before the network call with the envelope untouched; a throw in
the `response` or `ok`/`error` hooks happens after the network call
and the envelope update, but the call still does not complete
normally and later events do not fire. -/
theorem C2_hook_throw_propagates (st : State) (opts : SendOptions)
    (net : NetRequest → NetResponse) (pre : List Hook) (cb : Hook)
    (post : List Hook) (hpre : ∀ c ∈ pre, c.throws = false)
    (hcb : cb.throws = true) :
    (∀ ev, hookList st.hooks ev = pre ++ cb :: post →
      trigger st.hooks ev = (tagInvocations ev (pre ++ [cb]), some cb.id)) ∧
    (st.hooks.request = pre ++ cb :: post →
      (send st opts net).thrown = some cb.id ∧
      (send st opts net).sentRequest = none ∧
      (send st opts net).trace = tagInvocations .request (pre ++ [cb]) ∧
      (send st opts net).state = st) ∧
    (∀ ev, (∀ c ∈ st.hooks.request, c.throws = false) →
      verbEvent (opts.method.getD Method.GET) = some ev →
      hookList st.hooks ev = pre ++ cb :: post →
      (send st opts net).thrown = some cb.id ∧
      (send st opts net).sentRequest = none ∧
      (send st opts net).trace =
        tagInvocations .request st.hooks.request ++
        tagInvocations ev (pre ++ [cb]) ∧
      (send st opts net).state = st) ∧
    ((∀ c ∈ st.hooks.request, c.throws = false) →
      (∀ c ∈ (match verbEvent (opts.method.getD Method.GET) with
              | some ev => hookList st.hooks ev
              | none => []), c.throws = false) →
      st.hooks.response = pre ++ cb :: post →
      (send st opts net).thrown = some cb.id ∧
      (send st opts net).sentRequest.isSome = true ∧
      (send st opts net).trace =
        tagInvocations .request st.hooks.request ++
        (match verbEvent (opts.method.getD Method.GET) with
         | some ev => tagInvocations ev (hookList st.hooks ev)
         | none => []) ++
        tagInvocations .response (pre ++ [cb])) ∧
    ((∀ c ∈ st.hooks.request, c.throws = false) →
      (∀ c ∈ (match verbEvent (opts.method.getD Method.GET) with
              | some ev => hookList st.hooks ev
              | none => []), c.throws = false) →
      (∀ c ∈ st.hooks.response, c.throws = false) →
      hookList st.hooks
        (classifyEvent (send st opts net).state.container.status) =
        pre ++ cb :: post →
      (send st opts net).thrown = some cb.id ∧
      (send st opts net).sentRequest.isSome = true ∧
      (send st opts net).trace =
        tagInvocations .request st.hooks.request ++
        (match verbEvent (opts.method.getD Method.GET) with
         | some ev => tagInvocations ev (hookList st.hooks ev)
         | none => []) ++
        tagInvocations .response st.hooks.response ++
        tagInvocations (classifyEvent (send st opts net).state.container.status)
          (pre ++ [cb])) := by
  refine ⟨?_, ?_, ?_, ?_, ?_⟩
  · intro ev hsplit
    exact trigger_throwAt st.hooks ev pre cb post hsplit hpre hcb
  · intro hsplit
    have ht := trigger_throwAt st.hooks .request pre cb post hsplit hpre hcb
    unfold send
    dsimp only
    simp [ht]
  · intro ev h1 hv hsplit
    have ht1 : trigger st.hooks .request =
        (tagInvocations .request st.hooks.request, none) :=
      trigger_noThrow st.hooks .request h1
    have ht2 := trigger_throwAt st.hooks ev pre cb post hsplit hpre hcb
    unfold send
    dsimp only
    simp [hv, ht1, ht2]
  · intro h1 h2 hsplit
    have ht1 : trigger st.hooks .request =
        (tagInvocations .request st.hooks.request, none) :=
      trigger_noThrow st.hooks .request h1
    have ht3 := trigger_throwAt st.hooks .response pre cb post hsplit hpre hcb
    unfold send
    dsimp only
    rcases hv : verbEvent (opts.method.getD Method.GET) with _ | ev
    · simp [hv, ht1, ht3, List.append_assoc]
    · rw [hv] at h2
      have ht2 := trigger_noThrow st.hooks ev h2
      simp [hv, ht1, ht2, ht3, List.append_assoc]
  · intro h1 h2 h3 hsplit
    have ht1 : trigger st.hooks .request =
        (tagInvocations .request st.hooks.request, none) :=
      trigger_noThrow st.hooks .request h1
    have ht3 : trigger st.hooks .response =
        (tagInvocations .response st.hooks.response, none) :=
      trigger_noThrow st.hooks .response h3
    unfold send at hsplit ⊢
    dsimp only at hsplit ⊢
    rcases hv : verbEvent (opts.method.getD Method.GET) with _ | ev
    · simp only [hv, ht1, ht3] at hsplit ⊢
      have ht4 := trigger_throwAt st.hooks _ pre cb post hsplit hpre hcb
      simp [ht4, List.append_assoc]
    · rw [hv] at h2
      have ht2 := trigger_noThrow st.hooks ev h2
      simp only [hv, ht1, ht2, ht3] at hsplit ⊢
      have ht4 := trigger_throwAt st.hooks _ pre cb post hsplit hpre hcb
      simp [ht4, List.append_assoc]

/-- C2, witness: the amended statement at concrete inputs for a throw
in the `request` hooks, the `post` verb hooks, the `response` hooks
and the `error` hooks. -/
theorem C2_witness :
    ((send { hooks := { request := [⟨0, true⟩, ⟨1, false⟩] } } { url := "/a" }
        (fun _ => ⟨200, none, 0⟩)).thrown = some 0 ∧
      (send { hooks := { request := [⟨0, true⟩, ⟨1, false⟩] } } { url := "/a" }
        (fun _ => ⟨200, none, 0⟩)).sentRequest = none ∧
      (send { hooks := { request := [⟨0, true⟩, ⟨1, false⟩] } } { url := "/a" }
        (fun _ => ⟨200, none, 0⟩)).trace = [(.request, 0)] ∧
      (send { hooks := { request := [⟨0, true⟩, ⟨1, false⟩] } } { url := "/a" }
        (fun _ => ⟨200, none, 0⟩)).state =
        { hooks := { request := [⟨0, true⟩, ⟨1, false⟩] } }) ∧
    ((send { hooks := { post := [⟨5, true⟩, ⟨6, false⟩] } }
        { method := some .POST, url := "/a" } (fun _ => ⟨200, none, 0⟩)).thrown =
        some 5 ∧
      (send { hooks := { post := [⟨5, true⟩, ⟨6, false⟩] } }
        { method := some .POST, url := "/a" } (fun _ => ⟨200, none, 0⟩)).sentRequest =
        none ∧
      (send { hooks := { post := [⟨5, true⟩, ⟨6, false⟩] } }
        { method := some .POST, url := "/a" } (fun _ => ⟨200, none, 0⟩)).trace =
        [(.post, 5)]) ∧
    ((send { hooks := { response := [⟨2, true⟩, ⟨3, false⟩] } } { url := "/a" }
        (fun _ => ⟨200, none, 0⟩)).thrown = some 2 ∧
      (send { hooks := { response := [⟨2, true⟩, ⟨3, false⟩] } } { url := "/a" }
        (fun _ => ⟨200, none, 0⟩)).sentRequest.isSome = true ∧
      (send { hooks := { response := [⟨2, true⟩, ⟨3, false⟩] } } { url := "/a" }
        (fun _ => ⟨200, none, 0⟩)).trace = [(.response, 2)]) ∧
    ((send { hooks := { error := [⟨4, true⟩] } } { url := "/a" }
        (fun _ => ⟨404, none, 0⟩)).thrown = some 4 ∧
      (send { hooks := { error := [⟨4, true⟩] } } { url := "/a" }
        (fun _ => ⟨404, none, 0⟩)).sentRequest.isSome = true ∧
      (send { hooks := { error := [⟨4, true⟩] } } { url := "/a" }
        (fun _ => ⟨404, none, 0⟩)).trace = [(.error, 4)]) := by
  refine ⟨?_, ?_, ?_, ?_⟩
  · have h := (C2_hook_throw_propagates
      { hooks := { request := [⟨0, true⟩, ⟨1, false⟩] } } { url := "/a" }
      (fun _ => ⟨200, none, 0⟩) [] ⟨0, true⟩ [⟨1, false⟩] (by simp) rfl).2.1 rfl
    simpa [tagInvocations] using h
  · have h := ((C2_hook_throw_propagates
      { hooks := { post := [⟨5, true⟩, ⟨6, false⟩] } }
      { method := some .POST, url := "/a" } (fun _ => ⟨200, none, 0⟩)
      [] ⟨5, true⟩ [⟨6, false⟩] (by simp) rfl).2.2.1) .post (by simp) rfl rfl
    simpa [tagInvocations] using ⟨h.1, h.2.1, h.2.2.1⟩
  · have h := (C2_hook_throw_propagates
      { hooks := { response := [⟨2, true⟩, ⟨3, false⟩] } } { url := "/a" }
      (fun _ => ⟨200, none, 0⟩) [] ⟨2, true⟩ [⟨3, false⟩] (by simp) rfl).2.2.2.1
      (by simp) (by simp [verbEvent, hookList]) rfl
    simpa [tagInvocations, verbEvent, hookList] using h
  · have h := (C2_hook_throw_propagates
      { hooks := { error := [⟨4, true⟩] } } { url := "/a" }
      (fun _ => ⟨404, none, 0⟩) [] ⟨4, true⟩ [] (by simp) rfl).2.2.2.2
      (by simp) (by simp [verbEvent, hookList]) (by simp) (by decide)
    refine ⟨h.1, h.2.1, ?_⟩
    have h3 := h.2.2
    refine h3.trans ?_
    decide


/-- C3: `configureProfiles` resolves the environment as the (truthy)
explicit override, else the inferred tag; a missing or empty profile
URL fails with an error naming that environment and no other outcome;
on success the looked-up URL becomes the base URL and a supplied
(truthy) token is stored. -/
theorem C3_configureProfiles_spec (st : State) (hostname : String)
    (cfg : ProfileConfig) :
    (∀ e, cfg.env = some e → e ≠ "" → resolvedEnv cfg hostname = e) ∧
    (cfg.env = none → resolvedEnv cfg hostname = inferEnv hostname) ∧
    (optTruthy (cfg.profiles.lookup (resolvedEnv cfg hostname)) = false →
      configureProfiles st hostname cfg =
        (st, some ("No baseUrl found for environment: " ++ resolvedEnv cfg hostname))) ∧
    (∀ url, cfg.profiles.lookup (resolvedEnv cfg hostname) = some url → url ≠ "" →
      (configureProfiles st hostname cfg).2 = none ∧
      (configureProfiles st hostname cfg).1.baseUrl = url ∧
      (∀ t, cfg.token = some t → t ≠ "" →
        (configureProfiles st hostname cfg).1.token = some t ∧
        (configureProfiles st hostname cfg).1.localToken = some t)) := by
  refine ⟨?_, ?_, ?_, ?_⟩
  · intro e he hne
    simp [resolvedEnv, he, hne]
  · intro he
    simp [resolvedEnv, he]
  · intro hf
    rcases hl : cfg.profiles.lookup (resolvedEnv cfg hostname) with _ | url
    · simp [configureProfiles, hl]
    · rw [hl] at hf
      have hu : url = "" := by simpa [optTruthy] using hf
      simp [configureProfiles, hl, hu]
  · intro url hl hne
    rcases htk : cfg.token with _ | t
    · simp [configureProfiles, hl, hne, htk]
    · by_cases ht : t = "" <;>
        simp [configureProfiles, hl, hne, htk, ht, setToken]

/-- C3, witness: env="staging" over profiles {dev, prod} fails naming
"staging"; env="dev" succeeds, storing the URL and the token. -/
theorem C3_witness :
    configureProfiles {} "myhost"
      { env := some "staging",
        profiles := [("dev", "https://d"), ("prod", "https://p")] } =
      ({}, some "No baseUrl found for environment: staging") ∧
    (configureProfiles {} "myhost"
      { env := some "dev", profiles := [("dev", "https://d"), ("prod", "https://p")],
        token := some "T" }).1.baseUrl = "https://d" ∧
    (configureProfiles {} "myhost"
      { env := some "dev", profiles := [("dev", "https://d"), ("prod", "https://p")],
        token := some "T" }).1.token = some "T" := by
  refine ⟨?_, ?_, ?_⟩
  · have h := (C3_configureProfiles_spec {} "myhost"
      { env := some "staging",
        profiles := [("dev", "https://d"), ("prod", "https://p")] }).2.2.1
      (by decide)
    simpa using h
  · exact ((C3_configureProfiles_spec {} "myhost"
      { env := some "dev", profiles := [("dev", "https://d"), ("prod", "https://p")],
        token := some "T" }).2.2.2 "https://d" (by decide) (by decide)).2.1
  · exact (((C3_configureProfiles_spec {} "myhost"
      { env := some "dev", profiles := [("dev", "https://d"), ("prod", "https://p")],
        token := some "T" }).2.2.2 "https://d" (by decide) (by decide)).2.2 "T" rfl
      (by decide)).1

/-- C4: when no registered callback throws, a `send` call fires
`request`, then the verb event (for GET/POST/PUT/DELETE/PATCH), then
`response`, then exactly `ok` when the recorded status is in [200,300)
and exactly `error` otherwise, each event firing its callbacks once
each in registration order; no hook exception escapes. -/
theorem C4_send_hook_order (st : State) (opts : SendOptions)
    (net : NetRequest → NetResponse) (hb : noThrowHooks st.hooks = true) :
    (send st opts net).trace =
      tagInvocations .request st.hooks.request ++
      (match verbEvent (opts.method.getD Method.GET) with
       | some ev => tagInvocations ev (hookList st.hooks ev)
       | none => []) ++
      tagInvocations .response st.hooks.response ++
      (if 200 ≤ (send st opts net).state.container.status ∧
          (send st opts net).state.container.status < 300 then
        tagInvocations .ok st.hooks.ok
      else tagInvocations .error st.hooks.error) ∧
    (send st opts net).thrown = none := by
  have hno := noThrowHooks_spec st.hooks hb
  have ht : ∀ e, trigger st.hooks e = (tagInvocations e (hookList st.hooks e), none) :=
    fun e => trigger_noThrow st.hooks e (hno e)
  unfold send
  dsimp only
  rcases hv : verbEvent (opts.method.getD Method.GET) with _ | ev <;>
    (simp [hv, ht, List.append_assoc]
     rw [tagInvocations_classify]
     simp [hookList, List.append_assoc])

/-- C4, witness: a POST answered 204 fires request, post, response, ok
in that order, once each. -/
theorem C4_witness :
    (send
      { hooks :=
          { request := [⟨0, false⟩], post := [⟨1, false⟩], response := [⟨2, false⟩],
            ok := [⟨3, false⟩], error := [⟨4, false⟩] } }
      { method := some .POST, url := "/a" } (fun _ => ⟨204, none, 7⟩)).trace =
      [(.request, 0), (.post, 1), (.response, 2), (.ok, 3)] ∧
    (send
      { hooks :=
          { request := [⟨0, false⟩], post := [⟨1, false⟩], response := [⟨2, false⟩],
            ok := [⟨3, false⟩], error := [⟨4, false⟩] } }
      { method := some .POST, url := "/a" } (fun _ => ⟨204, none, 7⟩)).thrown = none := by
  obtain ⟨h1, h2⟩ := C4_send_hook_order
    { hooks :=
        { request := [⟨0, false⟩], post := [⟨1, false⟩], response := [⟨2, false⟩],
          ok := [⟨3, false⟩], error := [⟨4, false⟩] } }
    { method := some .POST, url := "/a" } (fun _ => ⟨204, none, 7⟩) (by decide)
  exact ⟨h1.trans (by decide), h2⟩

/-- C5: `resolveUrl` returns a URL starting with a recognized scheme
prefix unchanged for every base URL (hence is idempotent on absolute
URLs), and otherwise returns base URL ++ path verbatim. -/
theorem C5_resolveUrl_spec (baseUrl p : String) :
    (isAbsoluteUrl p = true →
      resolveUrl baseUrl p = p ∧
      resolveUrl baseUrl (resolveUrl baseUrl p) = resolveUrl baseUrl p) ∧
    (isAbsoluteUrl p = false → resolveUrl baseUrl p = baseUrl ++ p) := by
  constructor <;> intro h <;> simp [resolveUrl, h]

/-- C5, witness: an absolute URL passes through untouched and is a
fixed point; a relative path is concatenated verbatim, duplicate
slashes kept. -/
theorem C5_witness :
    resolveUrl "https://api.example" "https://other.example/a" =
      "https://other.example/a" ∧
    resolveUrl "https://api.example"
      (resolveUrl "https://api.example" "https://other.example/a") =
      resolveUrl "https://api.example" "https://other.example/a" ∧
    resolveUrl "https://api.example" "/v1//users" = "https://api.example/v1//users" := by
  refine ⟨?_, ?_, ?_⟩
  · exact ((C5_resolveUrl_spec "https://api.example" "https://other.example/a").1
      (by decide)).1
  · exact ((C5_resolveUrl_spec "https://api.example" "https://other.example/a").1
      (by decide)).2
  · exact ((C5_resolveUrl_spec "https://api.example" "/v1//users").2
      (by decide)).trans (by decide)

/-- C6: whenever `send` issues the network call, the envelope records
the response's status and raw handle unconditionally, `data` equals
the parsed body when parsing succeeds and null when it fails, and the
`ok()` classification depends only on the recorded status. -/
theorem C6_envelope_recorded (st : State) (opts : SendOptions)
    (net : NetRequest → NetResponse) (req : NetRequest)
    (h : (send st opts net).sentRequest = some req) :
    (send st opts net).state.container.status = (net req).status ∧
    (send st opts net).state.container.raw = some (net req).hid ∧
    (send st opts net).state.container.data = (net req).jsonBody ∧
    (okState (send st opts net).state = true ↔
      200 ≤ (net req).status ∧ (net req).status < 300) := by
  rcases send_fetch_char st opts net with ⟨hnone, -⟩ | ⟨req', hsome, -, -, -, hstate⟩
  · rw [h] at hnone
    cases hnone
  · rw [h] at hsome
    injection hsome with he
    subst he
    rw [hstate]
    simp [okState, okStatus]

/-- C6, witness: a 200 response whose body fails to parse records
status 200, the raw handle, data null, and still classifies as ok. -/
theorem C6_witness :
    (send {} { url := "/x" } (fun _ => ⟨200, none, 5⟩)).state.container.status = 200 ∧
    (send {} { url := "/x" } (fun _ => ⟨200, none, 5⟩)).state.container.raw = some 5 ∧
    (send {} { url := "/x" } (fun _ => ⟨200, none, 5⟩)).state.container.data = none ∧
    okState (send {} { url := "/x" } (fun _ => ⟨200, none, 5⟩)).state = true := by
  have h := C6_envelope_recorded {} { url := "/x" } (fun _ => ⟨200, none, 5⟩)
    ⟨.GET, "/x", [], "same-origin", none⟩ rfl
  exact ⟨h.1, h.2.1, h.2.2.1, h.2.2.2.mpr (by decide)⟩

/-- C7, counterexample: the claim that query-placement API-key auth
always appends `k=encoded(v)` is false at the empty URL: the code's
truthiness guard skips the append and returns the URL unchanged. -/
theorem C7_counterexample :
    (applyAuth none [] (some (.apikey "k" "v" .query)) "").2 = "" ∧
    (applyAuth none [] (some (.apikey "k" "v" .query)) "").2 ≠
      "?" ++ "k" ++ "=" ++ encodeURIComponent "v" := by
  exact ⟨rfl, by decide⟩

/-- C7, amended: for every non-empty URL, query-placement API-key auth
appends `k=encoded(v)` preceded by `?` when the URL contains no `?`
and by `&` when it does, with the value percent-encoded, and leaves
the headers unchanged; an empty URL is returned unchanged. -/
theorem C7_apikey_query_appends (g : Option AuthConfig) (hs : Headers)
    (k v url : String) (hurl : url ≠ "") :
    applyAuth g hs (some (.apikey k v .query)) url =
      (hs, url ++ (if jsIncludes url "?" then "&" else "?") ++ k ++ "=" ++
        encodeURIComponent v) := by
  simp [applyAuth, Option.orElse, hurl]

/-- C7, witness: appending `api=a b` to `/a` yields `/a?api=a%20b`,
and to `/a?x=1` yields `/a?x=1&api=a%20b`. -/
theorem C7_witness :
    applyAuth none [] (some (.apikey "api" "a b" .query)) "/a" =
      ([], "/a?api=a%20b") ∧
    applyAuth none [] (some (.apikey "api" "a b" .query)) "/a?x=1" =
      ([], "/a?x=1&api=a%20b") := by
  constructor
  · exact (C7_apikey_query_appends none [] "api" "a b" "/a" (by decide)).trans
      (by decide)
  · exact (C7_apikey_query_appends none [] "api" "a b" "/a?x=1" (by decide)).trans
      (by decide)

/-- C8: `applyAuth` uses the per-request auth config when present,
ignoring the global default entirely; uses the global default when
only it is present; and is a no-op on headers and URL when neither is
present. -/
theorem C8_applyAuth_choice (g g' : Option AuthConfig) (a : AuthConfig)
    (hs : Headers) (url : String) :
    applyAuth g hs (some a) url = applyAuth g' hs (some a) url ∧
    applyAuth (some a) hs none url = applyAuth none hs (some a) url ∧
    applyAuth none hs none url = (hs, url) := by
  exact ⟨rfl, rfl, rfl⟩

/-- C9: `send` only ever writes the response envelope: base URL,
token, global auth strategy, hook registry and stored credential are
identical before and after every call (callbacks are modelled as
non-mutating observers, per the claim's premise), for successful,
error-status and hook-aborted calls alike. -/
theorem C9_send_frame (st : State) (opts : SendOptions)
    (net : NetRequest → NetResponse) :
    (send st opts net).state.baseUrl = st.baseUrl ∧
    (send st opts net).state.token = st.token ∧
    (send st opts net).state.globalAuth = st.globalAuth ∧
    (send st opts net).state.hooks = st.hooks ∧
    (send st opts net).state.localToken = st.localToken := by
  refine ⟨?_, ?_, ?_, ?_, ?_⟩ <;>
    (unfold send; dsimp only; repeat' split) <;> rfl

/-- C10: `configureProfiles` is atomic on failure: when it reports a
configuration error, the whole client state — base URL, token, stored
credential and the rest — is exactly the entry state. -/
theorem C10_configureProfiles_atomic (st : State) (hostname : String)
    (cfg : ProfileConfig)
    (h : (configureProfiles st hostname cfg).2.isSome = true) :
    (configureProfiles st hostname cfg).1 = st := by
  rcases hl : cfg.profiles.lookup (resolvedEnv cfg hostname) with _ | url
  · simp [configureProfiles, hl]
  · by_cases hu : url = ""
    · simp [configureProfiles, hl, hu]
    · exfalso
      rcases htk : cfg.token with _ | t
      · simp [configureProfiles, hl, hu, htk] at h
      · by_cases ht : t = "" <;>
          simp [configureProfiles, hl, hu, htk, ht, setToken] at h

/-- C10, witness: a failing configuration carrying a token leaves the
previous base URL and token untouched; the new token is not stored. -/
theorem C10_witness :
    (configureProfiles { baseUrl := "old", token := some "keep" } "myhost"
      { env := some "staging", profiles := [("dev", "https://d")],
        token := some "newtoken" }).1 =
      { baseUrl := "old", token := some "keep" } := by
  exact C10_configureProfiles_atomic { baseUrl := "old", token := some "keep" }
    "myhost"
    { env := some "staging", profiles := [("dev", "https://d")],
      token := some "newtoken" } (by decide)

end Carrier
